import Mathlib

/-!
Verification of the streaming read-pipeline core of a nanopore basecalling
tool against its natural-language specification.  Each C++ function that a
claim refers to is shallowly embedded as an executable Lean definition;
machine integers are modelled as `Nat`/`Int` with explicit wrap-arounds where
the C++ performs unsigned arithmetic, fallible or undefined-behaviour paths
are modelled with `Except`, and side effects (log lines, progress callbacks,
file writes) are modelled as explicit event lists.
-/

/-! ## Sorted-BAM sink (`utils/hts_file.cpp`) -/

namespace HtsFileModel

/-- The fields of an HTS BAM record (`bam1_t`) that the sorted sink inspects:
the target id `core.tid` (a signed 32-bit value in C++), the position
`core.pos` (a signed 64-bit value), and the length of the variable-size data
block `l_data`. -/
structure Bam1 where
  tid : Int
  pos : Int
  l_data : Nat
deriving DecidableEq

/-- Reduction of a signed C++ integer to its `uint64_t` bit pattern, as
performed by `static_cast<uint64_t>`. -/
def toU64 (i : Int) : Nat := (i % (2 : Int) ^ 64).toNat

/-- Embedding of `HtsFile::calculate_sorting_key`:
`(static_cast<uint64_t>(record->core.tid) << 32) | record->core.pos`. -/
def calculate_sorting_key (rec : Bam1) : Nat :=
  Nat.lor ((toU64 rec.tid <<< 32) % 2 ^ 64) (toU64 rec.pos)

/-- One entry of `m_buffer_map`: a sorting key paired with an offset into the
byte buffer; the offset `-1` marks the record passed directly to
`flush_temp_file`. -/
abbrev BufferEntry := Nat × Int

/-- Embedding of `std::multimap::insert` on the key-ordered entry list: the
new pair is placed after every entry whose key is less than or equal to its
key (C++ multimaps insert at the upper bound of the equal range, preserving
insertion order among equal keys). -/
def multimap_insert (k : Nat) (v : Int) : List BufferEntry → List BufferEntry
  | [] => [(k, v)]
  | e :: rest => if k < e.1 then (k, v) :: e :: rest else e :: multimap_insert k v rest

/-- The provenance of one record written to a temporary file during a flush:
either a buffered record identified by its buffer offset, or the record that
was passed directly to `flush_temp_file` because it did not fit. -/
inductive WriteSrc where
  | buffered (offset : Int)
  | direct_record
deriving DecidableEq

/-- The portion of the `HtsFile` state that the sorted-output path mutates.
`sizeof(bam1_t)` is kept abstract as `bam1_struct_size`; buffer contents are
tracked through `buffer_map` only, since record bytes themselves never
influence control flow. -/
structure HtsState where
  finalised : Bool
  finalise_is_noop : Bool
  buffer_size : Nat
  current_buffer_offset : Nat
  buffer_map : List BufferEntry
  temp_files : Nat
  num_records : Nat
deriving DecidableEq

/-- Model of `sizeof(bam1_t)`; the exact value is a memory-layout constant
that none of the verified properties depend on. -/
def bam1_struct_size : Nat := 80

/-- The record written for one buffer-map entry during a flush: offset `-1`
selects the record passed directly, any other offset selects the buffered
copy at that offset. -/
def write_src_of_entry (e : BufferEntry) : WriteSrc :=
  if e.2 = -1 then .direct_record else .buffered e.2

/-- Embedding of `HtsFile::flush_temp_file`.  Returns the updated state and,
when a temporary file was actually written, the sequence of records written
to it (in buffer-map iteration order, i.e. ascending key order) after the
header.  Returns `none` for the early-out when the buffer is empty and no
record was passed. -/
def flush_temp_file (s : HtsState) (last_record : Option Bam1) :
    HtsState × Option (List WriteSrc) :=
  if s.current_buffer_offset = 0 ∧ last_record = none then
    (s, none)
  else
    let map :=
      match last_record with
      | some r => multimap_insert (calculate_sorting_key r) (-1) s.buffer_map
      | none => s.buffer_map
    let writes := map.map write_src_of_entry
    ({ s with
        temp_files := s.temp_files + 1
        current_buffer_offset := 0
        buffer_map := [] },
      some writes)

/-- Embedding of `HtsFile::cache_record`: if the record does not fit in the
remaining buffer space, the buffer plus this record are flushed to a
temporary file; otherwise the record is copied into the buffer, its key and
offset are inserted into the buffer map, and the write offset advances by the
record size rounded up to 8-byte alignment. -/
def cache_record (s : HtsState) (record : Bam1) : HtsState × Option (List WriteSrc) :=
  let bytes_required := bam1_struct_size + record.l_data
  if s.current_buffer_offset + bytes_required > s.buffer_size then
    flush_temp_file s (some record)
  else
    let sorting_key := calculate_sorting_key record
    let data_end := s.current_buffer_offset + bam1_struct_size + record.l_data
    ({ s with
        buffer_map := multimap_insert sorting_key (Int.ofNat s.current_buffer_offset) s.buffer_map
        current_buffer_offset := (data_end + 7) / 8 * 8 },
      none)

/-- Observable events of `HtsFile::finalise`: progress-callback invocations,
log lines, and the file operations of the sorted-output epilogue. -/
inductive HtsEvent where
  | progress (percent : Nat)
  | log (msg : String)
  | write_temp (writes : List WriteSrc)
  | rename_temp_to_output
  | merge (file_count : Nat)
  | build_index
deriving DecidableEq

/-- Embedding of `HtsFile::finalise`.  `file_is_mapped` stands for
`sam_hdr_nref(m_header) > 0` and `merge_ok` for the success of
`merge_temp_files`, both of which depend only on external HTS library state.
Returns the updated state paired with the emitted event sequence; the trailing
`progress 100` models the `PostCondition` executed on every return path. -/
def finalise (s : HtsState) (file_is_mapped : Bool) (merge_ok : Bool) :
    HtsState × List HtsEvent :=
  if s.finalised then
    (s, [.progress 0, .log "finalise() called twice on a HtsFile. Ignoring second call.",
         .progress 100])
  else
    let s1 := { s with finalised := true }
    if s1.finalise_is_noop then
      (s1, [.progress 0, .progress 100])
    else
      let (s2, flushed) := flush_temp_file s1 none
      let flush_events := match flushed with
        | some writes => [HtsEvent.write_temp writes]
        | none => []
      if s2.temp_files = 0 then
        (s2, [.progress 0] ++ flush_events ++ [.progress 100])
      else if s2.temp_files = 1 then
        ({ s2 with temp_files := 0 },
          [.progress 0] ++ flush_events ++ [.rename_temp_to_output] ++
            (if file_is_mapped then [.progress 50, .build_index] else []) ++ [.progress 100])
      else
        if merge_ok then
          (s2, [.progress 0] ++ flush_events ++ [.progress 5, .merge s2.temp_files] ++
            (if file_is_mapped then [.progress 50, .build_index] else []) ++ [.progress 100])
        else
          (s2, [.progress 0] ++ flush_events ++ [.progress 5, .merge s2.temp_files,
            .log "Merging of temporary files failed. Skipping indexing.", .progress 100])

/-- Outcome of running `HtsFile::~HtsFile`. -/
inductive DtorOutcome where
  | returns
  | aborted (logs : List String)
deriving DecidableEq

/-- Embedding of `HtsFile::~HtsFile`: when `m_finalised` is unset, an error is
logged and `std::abort` is called; otherwise the destructor returns
normally. -/
def hts_file_destructor (s : HtsState) : DtorOutcome :=
  if !s.finalised then
    .aborted ["finalise() not called on a HtsFile."]
  else
    .returns

end HtsFileModel

/-! ## PolyA tail calculation (`read_pipeline/PolyACalculatorNode.cpp` and
`read_pipeline/PolyACalculator.cpp`) -/

namespace PolyAModel

/-- The per-read outcome of the tail-length decision: the value stored in
`rna_poly_tail_length` (or `none` when it is left unset) and the increments
applied to the not-called and called counters. -/
structure TailOutcome where
  rna_poly_tail_length : Option Int
  not_called_inc : Nat
  called_inc : Nat
deriving DecidableEq

/-- The value `num_bases` computed by `PolyACalculatorNode::input_thread_fn`
(lines 40-46): the first `calculate_num_bases` result plus, when
`signal_info.split_tail` is set, the second result clamped below by 0. -/
def node_num_bases (n1 : Int) (split : Option Int) : Int :=
  n1 + (match split with | some s => max 0 s | none => 0)

/-- Embedding of the recording decision of `PolyACalculatorNode::input_thread_fn`
(lines 39-63).  The injected calculator is external code, so its outputs are
the parameters: `signal_anchor` from `determine_signal_anchor_and_strand`,
`n1` from the first `calculate_num_bases` call, and `split` from the second
call when `signal_info.split_tail` is set.  Recording requires
`num_bases > 0 && num_bases < calculator->max_tail_length()`. -/
def node_tail_decision (signal_anchor n1 : Int) (split : Option Int) (max_tail : Int) :
    TailOutcome :=
  if signal_anchor ≥ 0 then
    let num_bases := node_num_bases n1 split
    if num_bases > 0 ∧ num_bases < max_tail then
      { rna_poly_tail_length := some num_bases, not_called_inc := 0, called_inc := 1 }
    else
      { rna_poly_tail_length := none, not_called_inc := 1, called_inc := 0 }
  else
    { rna_poly_tail_length := none, not_called_inc := 1, called_inc := 0 }

/-- The hard-coded `kMaxTailLength` of `PolyACalculator.cpp`. -/
def kMaxTailLength : Int := 750

/-- Embedding of the recording decision of `PolyACalculator::worker_thread`
(lines 380-419): `base_anchor` comes from the anchor-detection function and
`num_bases` is the rounded signal-range estimate minus `trailing_Ts`.
Recording requires `num_bases >= 0 && num_bases < kMaxTailLength`. -/
def worker_tail_decision (base_anchor num_bases : Int) : TailOutcome :=
  if base_anchor ≥ 0 then
    if num_bases ≥ 0 ∧ num_bases < kMaxTailLength then
      { rna_poly_tail_length := some num_bases, not_called_inc := 0, called_inc := 1 }
    else
      { rna_poly_tail_length := none, not_called_inc := 1, called_inc := 0 }
  else
    { rna_poly_tail_length := none, not_called_inc := 1, called_inc := 0 }

/-- Embedding of `determine_base_anchor_and_strand_rna` (`PolyACalculator.cpp`
lines 282-334).  The floating-point search for a jump in windowed signal means
is abstracted by its result `bp` (the break point, `-1` when none was found
within the scanned range); every execution of the C++ function corresponds to
some value of `bp`.  The returned triple is `(fwd, base_anchor, trailing_Ts)`. -/
def determine_base_anchor_and_strand_rna (bp : Int) : Bool × Int × Int :=
  if bp > 0 then (false, bp, 0) else (false, -1, 0)

end PolyAModel

/-! ## Modified-base caller (`read_pipeline/ModBaseCallerNode.cpp`) -/

namespace ModBaseModel

/-- Embedding of the probability-byte conversion of
`ModBaseCallerNode::worker_thread` line 51-52:
`uint8_t(std::min(std::floor(p * 256), 255.0f))`.  The model probability `p`
is represented as a rational; for `p` in the unit interval the float
computation is exact (multiplication by the power of two 256 does not round,
and `floor`/`min` are exact), so the rational model coincides with the float
semantics on the claimed domain. -/
def stored_mod_prob (p : ℚ) : Int := min ⌊p * 256⌋ 255

/-- Embedding of the conversion loop over the model output (lines 50-53): each
position of `base_mod_probs` receives the converted byte. -/
def base_mod_probs_bytes (ps : List ℚ) : List Int := ps.map stored_mod_prob

end ModBaseModel

/-! ## Correction node (`read_pipeline/CorrectionNode.cpp`) -/

namespace CorrectionModel

/-- The fields of a `CorrectionAlignments` message that
`CorrectionNode::input_thread_fn` reads before any window processing:
the target read name and its sequence length. -/
structure CorrectionAlignments where
  read_name : String
  read_seq_len : Nat
deriving DecidableEq

/-- The message variants distinguished by `CorrectionNode::input_thread_fn`:
a `CorrectionAlignments` payload is consumed, everything else is forwarded. -/
inductive CrMessage where
  | correction_alignments (ca : CorrectionAlignments)
  | other_message
deriving DecidableEq

/-- Observable per-message effects of one loop iteration of
`CorrectionNode::input_thread_fn`: the messages passed to
`send_message_to_sink`, the number of dropped-message counter increments
(there is no such counter in the code, so this is always 0), and the number
of windows computed locally when the debug-gated branch ran. -/
structure StepEffects where
  forwarded : List CrMessage
  counter_increments : Nat
  processed_windows : Option Nat
deriving DecidableEq

/-- The fixed correction window size `m_window_size`. -/
def m_window_size : Nat := 4096

/-- Embedding of one iteration of `CorrectionNode::input_thread_fn`
(lines 424-451).  A `CorrectionAlignments` message is consumed: when its read
name equals the hard-coded id, windows are extracted into a local vector and
features are computed, after which the vector goes out of scope — nothing is
sent to the sink and no counter is touched; for any other read name the
branch body is skipped entirely.  Non-`CorrectionAlignments` messages are
forwarded unchanged. -/
def input_thread_step (msg : CrMessage) : StepEffects :=
  match msg with
  | .correction_alignments ca =>
      if ca.read_name = "d6a6b9c7-a8ed-4271-a003-bd299cf84c85" then
        let n_windows := (ca.read_seq_len + m_window_size - 1) / m_window_size
        { forwarded := [], counter_increments := 0, processed_windows := some n_windows }
      else
        { forwarded := [], counter_increments := 0, processed_windows := none }
  | .other_message =>
      { forwarded := [msg], counter_increments := 0, processed_windows := none }

/-- Cigar operation kinds used by the correction code. -/
inductive CigarOpType where
  | MATCH
  | MISMATCH
  | INS
  | DEL
  | OTHER
deriving DecidableEq

/-- One cigar operation: a kind with an unsigned length. -/
structure CigarOp where
  op : CigarOpType
  len : Nat
deriving DecidableEq

/-- The `OverlapWindow` record of `CorrectionNode.cpp` (the float `accuracy`
field is not modelled; `get_max_ins_for_window` never reads it). -/
structure OverlapWindow where
  overlap_idx : Nat
  tstart : Int
  qstart : Int
  qend : Int
  cigar_start_idx : Int
  cigar_start_offset : Int
  cigar_end_idx : Int
  cigar_end_offset : Int
deriving DecidableEq

/-- Out-of-range accesses of `get_max_ins_for_window`, which are undefined
behaviour in the C++ and are surfaced as errors by the embedding. -/
inductive IndexError where
  | max_ins_out_of_bounds (idx : Int)
  | cigar_out_of_bounds (idx : Int)
  | overlap_out_of_bounds (idx : Nat)
deriving DecidableEq

/-- The integer indices `i` visited by
`for (int i = start; i <= stop; i++)`. -/
def cigar_index_list (start_idx stop : Int) : List Int :=
  if start_idx ≤ stop then
    (List.range (stop - start_idx + 1).toNat).map (fun j => start_idx + Int.ofNat j)
  else []

/-- Embedding of one iteration of the inner cigar loop of
`get_max_ins_for_window` (lines 158-180).  The state is the running target
position `tpos` and the `max_ins` vector.  An `INS` op writes
`max_ins[tpos - 1] = max(len, max_ins[tpos - 1])` and skips the position
advance; `MATCH` and `DEL` set `l = len` while any other op leaves `l = -1`,
after which `tpos` advances according to the cigar-bracket offsets. -/
def get_max_ins_step (cigar : List CigarOp) (ow : OverlapWindow) (cigar_len : Int)
    (st : Int × List Int) (i : Int) : Except IndexError (Int × List Int) :=
  let (tpos, max_ins) := st
  if i < 0 then .error (.cigar_out_of_bounds i)
  else
    match cigar.get? i.toNat with
    | none => .error (.cigar_out_of_bounds i)
    | some c =>
      let len : Int := Int.ofNat c.len
      if c.op = .INS then
        if 0 ≤ tpos - 1 ∧ tpos - 1 < Int.ofNat max_ins.length then
          .ok (tpos, max_ins.set (tpos - 1).toNat (max len (max_ins.getD (tpos - 1).toNat 0)))
        else
          .error (.max_ins_out_of_bounds (tpos - 1))
      else
        let l : Int := if c.op = .MATCH ∨ c.op = .DEL then len else -1
        let tpos' :=
          if cigar_len = 1 then tpos + (ow.cigar_end_offset - ow.cigar_start_offset)
          else if i = ow.cigar_start_idx then tpos + (l - ow.cigar_start_offset)
          else if i = ow.cigar_end_idx then tpos + ow.cigar_end_offset
          else tpos + l
        .ok (tpos', max_ins)

/-- Embedding of `get_max_ins_for_window` (lines 146-189): `max_ins` starts as
`win_len` zeros; for each overlap window the running target position starts at
`overlap.tstart - tstart` and the cigar ops in the bracket
`[cigar_start_idx, min(cigar_end_idx, cigar.size()-1)]` are scanned. -/
def get_max_ins_for_window (windows : List OverlapWindow) (cigars : List (List CigarOp))
    (tstart : Int) (win_len : Nat) : Except IndexError (List Int) :=
  windows.foldlM
    (fun max_ins ow => do
      match cigars.get? ow.overlap_idx with
      | none => .error (.overlap_out_of_bounds ow.overlap_idx)
      | some cigar =>
        let cigar_len := ow.cigar_end_idx - ow.cigar_start_idx + 1
        let idxs := cigar_index_list ow.cigar_start_idx
          (min ow.cigar_end_idx (Int.ofNat cigar.length - 1))
        let r ← idxs.foldlM (get_max_ins_step cigar ow cigar_len) (ow.tstart - tstart, max_ins)
        pure r.2)
    (List.replicate win_len 0)

end CorrectionModel

/-! ## Runner construction plan (`nn/Runners.cpp`) -/

namespace RunnersModel

/-- The part of `CRFModelConfig` that runner construction consumes: the model
stride. -/
structure CRFModelConfig where
  stride : Nat
deriving DecidableEq

/-- A constructed runner handle with its reported attributes. -/
structure Runner where
  model_stride : Nat
  chunk_size : Nat
  batch_size : Nat
deriving DecidableEq

/-- The device specification after parsing, merging the preprocessor variants
of `create_basecall_runners`: the CPU path, the Apple/Metal path, and the CUDA
path where `parse_cuda_device_string` has produced a device list.  Device
strings the build rejects (`Unsupported device`) have no representation
here. -/
inductive DeviceSpec where
  | cpu
  | metal
  | cuda (devices : List String)
deriving DecidableEq

/-- Modelled from the spec: caller construction is not among the sources
(`CudaCaller`, `MetalCaller` and `ModelRunner` live outside them); the spec
states that a caller may "round `chunk_size` up to the nearest multiple of
model stride", which every runner then reports via `chunk_size()`. -/
def adjust_chunk_size (stride chunk : Nat) : Nat := (chunk + stride - 1) / stride * stride

/-- Log lines emitted by `create_basecall_runners`. -/
inductive RunnerLog where
  | debug_cpu_params (batch runners : Nat)
  | info_batch_size (b : Nat)
  | warn_batch_size (b : Nat)
  | debug_adjusted_chunk (requested adjusted : Nat)
deriving DecidableEq

/-- The value a successful `create_basecall_runners` call hands back to its
caller: `std::pair<std::vector<Runner>, size_t>` where the second component is
the device count. -/
structure RunnersResult where
  runners : List Runner
  num_devices : Nat
deriving DecidableEq

/-- Failure modes of the plan, including the undefined behaviour of
dereferencing `runners.front()`/`runners.back()` on an empty vector. -/
inductive RunnersError where
  | no_devices_found
  | empty_runners_ub
deriving DecidableEq

/-- The epilogue of `create_basecall_runners` (lines 115-130): read
`model_stride()` and `chunk_size()` from `runners.front()` (undefined
behaviour when empty), log when the chunk size was adjusted, overwrite the
local `chunk_size` variable with the adjusted value, and return the pair
`(runners, num_devices)`. -/
def runners_epilogue (requested_chunk : Nat) (runners : List Runner) (num_devices : Nat)
    (logs : List RunnerLog) : Except RunnersError (RunnersResult × List RunnerLog) :=
  match runners with
  | [] => .error .empty_runners_ub
  | r :: _ =>
    let adjusted_chunk_size := r.chunk_size
    let logs' := logs ++
      (if requested_chunk ≠ adjusted_chunk_size then
        [RunnerLog.debug_adjusted_chunk requested_chunk adjusted_chunk_size]
      else [])
    .ok (⟨runners, num_devices⟩, logs')

/-- Embedding of `create_basecall_runners` (lines 23-131).  Quantities the
sources do not define are parameters: `auto_num_runners` stands for
`auto_calculate_num_runners` and `negotiate_batch` for the batch-size
negotiation a caller performs per device (spec-modelled: callers "negotiate
batch_size downward"); the chunk-size rounding is `adjust_chunk_size`.  The
back()-dereferences used for batch-size logging on the GPU paths make an
empty runner vector undefined behaviour there as well. -/
def create_basecall_runners (model_config : CRFModelConfig) (device : DeviceSpec)
    (num_gpu_runners num_cpu_runners batch_size chunk_size auto_num_runners : Nat)
    (negotiate_batch : String → Nat → Nat) :
    Except RunnersError (RunnersResult × List RunnerLog) :=
  match device with
  | .cpu =>
    let batch := if batch_size = 0 then 128 else batch_size
    let n := if num_cpu_runners = 0 then auto_num_runners else num_cpu_runners
    let runner : Runner :=
      ⟨model_config.stride, adjust_chunk_size model_config.stride chunk_size, batch⟩
    runners_epilogue chunk_size (List.replicate n runner) 1 [.debug_cpu_params batch n]
  | .metal =>
    let caller_chunk := adjust_chunk_size model_config.stride chunk_size
    let caller_batch := negotiate_batch "metal" batch_size
    let runners : List Runner :=
      List.replicate num_gpu_runners ⟨model_config.stride, caller_chunk, caller_batch⟩
    if runners.isEmpty then .error .empty_runners_ub
    else
      let logs :=
        if batch_size = 0 then [RunnerLog.info_batch_size caller_batch]
        else if caller_batch ≠ batch_size then [RunnerLog.warn_batch_size caller_batch]
        else []
      runners_epilogue chunk_size runners 1 logs
  | .cuda devices =>
    if devices.length = 0 then .error .no_devices_found
    else if num_gpu_runners = 0 then .error .empty_runners_ub
    else
      let caller_chunk := adjust_chunk_size model_config.stride chunk_size
      let runners : List Runner := devices.flatMap (fun d =>
        List.replicate num_gpu_runners
          ⟨model_config.stride, caller_chunk, negotiate_batch d batch_size⟩)
      let logs := devices.flatMap (fun d =>
        let b := negotiate_batch d batch_size
        if batch_size = 0 then [RunnerLog.info_batch_size b]
        else if b ≠ batch_size then [RunnerLog.warn_batch_size b]
        else [])
      runners_epilogue chunk_size runners devices.length logs

/-- A batch-negotiation function used by the concrete instantiations: every
device accepts the requested batch size unchanged. -/
def accept_requested_batch : String → Nat → Nat := fun _ b => b

end RunnersModel

/-! ## Async task executor (`utils/concurrency/async_task_executor.cpp`) -/

namespace ExecutorModel

/-- Control location of a producer thread inside `AsyncTaskExecutor::send` for
the one task it sends (tasks are identified by naturals; the producer of task
`t` is indexed by `t`): it has not yet called `send`, it is blocked in
`waiting_task->started.wait()`, or `send` has returned. -/
inductive SenderPC where
  | idle
  | waiting
  | returned
deriving DecidableEq

/-- Control location of a worker thread in `process_task_queue`: between
iterations, holding a task just popped by `wait_on_next_task` but not yet
signalled, or executing a task after signalling its latch. -/
inductive WorkerPC where
  | idle
  | popped (t : Nat)
  | running (t : Nat)
deriving DecidableEq

/-- Pointwise update of a map, used for all per-task and per-worker state. -/
def upd {α : Type} (f : Nat → α) (k : Nat) (v : α) : Nat → α :=
  fun x => if x = k then v else f x

/-- Global state of the executor: the FIFO `m_task_queue` (under `m_mutex`),
the per-task `started` latch, producer and worker control locations, and two
history variables recording which worker popped and signalled each task. -/
structure ExecState where
  task_queue : List Nat
  latch : Nat → Bool
  sender : Nat → SenderPC
  worker : Nat → WorkerPC
  popped_by : Nat → Option Nat
  signalled_by : Nat → Option Nat

/-- The initial state: empty queue, no latch signalled, all threads idle. -/
def initState : ExecState where
  task_queue := []
  latch := fun _ => false
  sender := fun _ => SenderPC.idle
  worker := fun _ => WorkerPC.idle
  popped_by := fun _ => none
  signalled_by := fun _ => none

/-- Interleaving semantics of `send_impl` and `process_task_queue`:
`send_push` is the locked `m_task_queue.push` of `send_impl`; `send_return`
is `started.wait()` completing, which latch semantics permit only once the
latch was signalled; `worker_pop` is `wait_on_next_task` removing the queue
front; `worker_signal` is `waiting_task->started.signal()`; `worker_finish`
is `waiting_task->task()` completing. -/
inductive Step : ExecState → ExecState → Prop where
  | send_push (s : ExecState) (t : Nat) (h : s.sender t = .idle) :
      Step s { s with
        task_queue := s.task_queue ++ [t]
        sender := upd s.sender t .waiting }
  | send_return (s : ExecState) (t : Nat) (hw : s.sender t = .waiting)
      (hl : s.latch t = true) :
      Step s { s with sender := upd s.sender t .returned }
  | worker_pop (s : ExecState) (w t : Nat) (rest : List Nat) (hw : s.worker w = .idle)
      (hq : s.task_queue = t :: rest) :
      Step s { s with
        task_queue := rest
        worker := upd s.worker w (.popped t)
        popped_by := upd s.popped_by t (some w) }
  | worker_signal (s : ExecState) (w t : Nat) (hw : s.worker w = .popped t) :
      Step s { s with
        latch := upd s.latch t true
        worker := upd s.worker w (.running t)
        signalled_by := upd s.signalled_by t (some w) }
  | worker_finish (s : ExecState) (w t : Nat) (hw : s.worker w = .running t) :
      Step s { s with worker := upd s.worker w .idle }

/-- States reachable from the initial state by interleaved steps. -/
inductive Reachable : ExecState → Prop where
  | init : Reachable initState
  | step {s s' : ExecState} : Reachable s → Step s s' → Reachable s'

/-- Inductive invariant of the executor: queue entries are unique and not yet
popped, unsent tasks have no history, a worker holding a popped task is the
recorded popper, a signalled latch has a recorded signaller who is also the
popper, and a returned `send` implies a signalled latch. -/
def Inv (s : ExecState) : Prop :=
  s.task_queue.Nodup ∧
  (∀ t ∈ s.task_queue, s.popped_by t = none) ∧
  (∀ t, s.sender t = .idle → t ∉ s.task_queue ∧ s.popped_by t = none) ∧
  (∀ w t, s.worker w = .popped t → s.popped_by t = some w) ∧
  (∀ t w, s.signalled_by t = some w → s.popped_by t = some w) ∧
  (∀ t, s.latch t = true → (s.signalled_by t).isSome = true) ∧
  (∀ t, s.sender t = .returned → s.latch t = true)

/-- A four-step demonstration execution: task 0 is pushed by its producer,
popped by worker 0, its latch is signalled, and `send` returns. -/
def demo1 : ExecState :=
  { initState with
      task_queue := initState.task_queue ++ [0]
      sender := upd initState.sender 0 .waiting }

/-- Demonstration state after worker 0 pops task 0. -/
def demo2 : ExecState :=
  { demo1 with
      task_queue := []
      worker := upd demo1.worker 0 (.popped 0)
      popped_by := upd demo1.popped_by 0 (some 0) }

/-- Demonstration state after worker 0 signals the latch of task 0. -/
def demo3 : ExecState :=
  { demo2 with
      latch := upd demo2.latch 0 true
      worker := upd demo2.worker 0 (.running 0)
      signalled_by := upd demo2.signalled_by 0 (some 0) }

/-- Demonstration state after `send` of task 0 returns. -/
def demo4 : ExecState :=
  { demo3 with sender := upd demo3.sender 0 .returned }

end ExecutorModel

/-! ## Theorems -/

/-- Claim C5: `HtsFile::finalise` is idempotent — on an `HtsFile` whose
`m_finalised` flag is already set, a second `finalise` call emits its warning
diagnostic between the two progress callbacks, performs no file operations,
and returns with the entire state unchanged. -/
theorem C5_finalise_idempotent (s : HtsFileModel.HtsState)
    (file_is_mapped merge_ok : Bool) (h : s.finalised = true) :
    HtsFileModel.finalise s file_is_mapped merge_ok =
      (s, [.progress 0,
           .log "finalise() called twice on a HtsFile. Ignoring second call.",
           .progress 100]) := by
  simp [HtsFileModel.finalise, h]

/-- Witness for C5: a concrete already-finalised state with pending temp
files; the second call returns it untouched with only the log and progress
events. -/
theorem C5_witness :
    HtsFileModel.finalise ⟨true, false, 200, 0, [], 2, 5⟩ true true =
      (⟨true, false, 200, 0, [], 2, 5⟩,
       [.progress 0,
        .log "finalise() called twice on a HtsFile. Ignoring second call.",
        .progress 100]) :=
  C5_finalise_idempotent ⟨true, false, 200, 0, [], 2, 5⟩ true true rfl

/-- Claim C9: the `HtsFile` destructor checks `m_finalised` and aborts the
process (after logging an error) exactly when `finalise` was never called;
when the flag is set it returns normally. -/
theorem C9_destructor_aborts_iff_not_finalised (s : HtsFileModel.HtsState) :
    (HtsFileModel.hts_file_destructor s = .returns ↔ s.finalised = true) ∧
    (s.finalised = false →
      HtsFileModel.hts_file_destructor s =
        .aborted ["finalise() not called on a HtsFile."]) := by
  cases hf : s.finalised <;> simp [HtsFileModel.hts_file_destructor, hf]

/-- Claim C1 (code bug): `CorrectionNode::input_thread_fn` consumes every
`CorrectionAlignments` message without forwarding anything to its sink and
without incrementing any counter — for a read name other than the hard-coded
debug id the branch body is skipped outright, and for the hard-coded id the
extracted windows are discarded when the local vector goes out of scope.
Only non-`CorrectionAlignments` messages are forwarded. -/
theorem C1_correction_node_silent_drop :
    CorrectionModel.input_thread_step
        (.correction_alignments ⟨"read-1", 5000⟩) =
      { forwarded := [], counter_increments := 0, processed_windows := none } ∧
    CorrectionModel.input_thread_step
        (.correction_alignments ⟨"d6a6b9c7-a8ed-4271-a003-bd299cf84c85", 5000⟩) =
      { forwarded := [], counter_increments := 0, processed_windows := some 2 } ∧
    CorrectionModel.input_thread_step .other_message =
      { forwarded := [.other_message], counter_increments := 0,
        processed_windows := none } :=
  ⟨rfl, rfl, rfl⟩

/-- Claim C7: `determine_base_anchor_and_strand_rna` returns `fwd = false` on
every path, whether or not a break point was found. -/
theorem C7_rna_anchor_fwd_always_false (bp : Int) :
    (PolyAModel.determine_base_anchor_and_strand_rna bp).1 = false := by
  unfold PolyAModel.determine_base_anchor_and_strand_rna
  split <;> rfl

/-- Counterexample for C6: in `PolyACalculator::worker_thread` a computed
tail length of 0 — which is not strictly inside `(0, kMaxTailLength)` — is
nevertheless recorded on the read (`rna_poly_tail_length = 0`) and the
not-called counter is not incremented. -/
theorem C6_worker_records_zero_cex :
    PolyAModel.worker_tail_decision 0 0 =
      { rna_poly_tail_length := some 0, not_called_inc := 0, called_inc := 1 } ∧
    ¬ (0 < (0 : Int)) := by
  refine ⟨rfl, by omega⟩

/-- Claim C6 (amended): in `PolyACalculatorNode::input_thread_fn` the computed
value `n` is recorded iff `n` lies strictly inside `(0, max_tail_length)`,
while in `PolyACalculator::worker_thread` it is recorded iff `n` lies in the
half-open interval `[0, kMaxTailLength)`; in both, the not-called counter is
incremented exactly when the tail length is left unset. -/
theorem C6_tail_recording_conditions :
    (∀ (anchor n1 : Int) (split : Option Int) (max_tail : Int),
      (PolyAModel.node_tail_decision anchor n1 split max_tail).rna_poly_tail_length =
        (if anchor ≥ 0 ∧ 0 < PolyAModel.node_num_bases n1 split ∧
            PolyAModel.node_num_bases n1 split < max_tail
         then some (PolyAModel.node_num_bases n1 split) else none) ∧
      ((PolyAModel.node_tail_decision anchor n1 split max_tail).rna_poly_tail_length = none ↔
        (PolyAModel.node_tail_decision anchor n1 split max_tail).not_called_inc = 1)) ∧
    (∀ anchor n : Int,
      (PolyAModel.worker_tail_decision anchor n).rna_poly_tail_length =
        (if anchor ≥ 0 ∧ 0 ≤ n ∧ n < PolyAModel.kMaxTailLength then some n else none) ∧
      ((PolyAModel.worker_tail_decision anchor n).rna_poly_tail_length = none ↔
        (PolyAModel.worker_tail_decision anchor n).not_called_inc = 1)) := by
  constructor
  · intro anchor n1 split max_tail
    simp only [PolyAModel.node_tail_decision]
    split_ifs <;> simp_all
  · intro anchor n
    simp only [PolyAModel.worker_tail_decision]
    split_ifs <;> simp_all

/-- Claim C8: every byte stored by the modified-base caller node equals
`min(floor(p * 256), 255)` for the model probability `p` of that position, so
for probabilities in the unit interval every stored value fits a `u8` in
`[0, 255]`, and a probability of exactly 1 maps to 255. -/
theorem C8_mod_prob_byte_bounds (ps : List ℚ) (h : ∀ p ∈ ps, 0 ≤ p ∧ p ≤ 1) :
    (∀ b ∈ ModBaseModel.base_mod_probs_bytes ps, 0 ≤ b ∧ b ≤ 255) ∧
    ModBaseModel.stored_mod_prob 1 = 255 := by
  constructor
  · intro b hb
    simp only [ModBaseModel.base_mod_probs_bytes, List.mem_map] at hb
    obtain ⟨p, hp, rfl⟩ := hb
    obtain ⟨hp0, -⟩ := h p hp
    refine ⟨le_min ?_ (by norm_num), min_le_right _ _⟩
    exact Int.floor_nonneg.mpr (by positivity)
  · have : ⌊(1 : ℚ) * 256⌋ = 256 := by norm_num
    simp [ModBaseModel.stored_mod_prob, this]

/-- Witness for C8: a concrete list of probabilities covering both interval
ends; all stored bytes are in range and 1 maps to 255. -/
theorem C8_witness :
    (∀ b ∈ ModBaseModel.base_mod_probs_bytes [0, 1/2, 1], 0 ≤ b ∧ b ≤ 255) ∧
    ModBaseModel.stored_mod_prob 1 = 255 :=
  C8_mod_prob_byte_bounds [0, 1/2, 1] (by norm_num)

/-- Claim C10 (code bug): `get_max_ins_for_window` evaluated at a window
whose cigar bracket begins with an insertion at the window start — the
running target position is then `tpos = 0` and the code writes
`max_ins[tpos - 1]`, i.e. index `-1`, out of bounds. -/
theorem C10_max_ins_write_out_of_bounds :
    CorrectionModel.get_max_ins_for_window
      [⟨0, 0, 0, 0, 0, 0, 0, 5⟩]
      [[⟨CorrectionModel.CigarOpType.INS, 5⟩]] 0 10 =
      .error (.max_ins_out_of_bounds (-1)) := rfl

/-- Decomposition of a multimap insert: the new pair lands after exactly the
leading entries whose key is at most the new key. -/
theorem multimap_insert_eq_takeWhile (k : Nat) (v : Int) :
    ∀ m : List HtsFileModel.BufferEntry,
      HtsFileModel.multimap_insert k v m =
        m.takeWhile (fun e => decide (e.1 ≤ k)) ++
          (k, v) :: m.dropWhile (fun e => decide (e.1 ≤ k))
  | [] => by simp [HtsFileModel.multimap_insert]
  | e :: rest => by
    by_cases h : k < e.1
    · have hne : ¬ (e.1 ≤ k) := by omega
      simp [HtsFileModel.multimap_insert, h, hne]
    · have hle : e.1 ≤ k := by omega
      simp [HtsFileModel.multimap_insert, h, hle,
        multimap_insert_eq_takeWhile k v rest]

/-- Membership in a multimap insert comes from the new pair or the old
list. -/
theorem mem_multimap_insert {k : Nat} {v : Int} {x : HtsFileModel.BufferEntry} :
    ∀ {m : List HtsFileModel.BufferEntry},
      x ∈ HtsFileModel.multimap_insert k v m → x = (k, v) ∨ x ∈ m := by
  intro m
  induction m with
  | nil => simp [HtsFileModel.multimap_insert]
  | cons e rest ih =>
    simp only [HtsFileModel.multimap_insert]
    split_ifs with h
    · intro hx
      rcases List.mem_cons.mp hx with h1 | h2
      · exact Or.inl h1
      · exact Or.inr h2
    · intro hx
      rcases List.mem_cons.mp hx with h1 | h2
      · exact Or.inr (by simp [h1])
      · rcases ih h2 with h3 | h4
        · exact Or.inl h3
        · exact Or.inr (List.mem_cons_of_mem _ h4)

/-- A multimap insert preserves the key-sortedness of the entry list. -/
theorem multimap_insert_pairwise {k : Nat} {v : Int}
    {m : List HtsFileModel.BufferEntry}
    (h : m.Pairwise (fun a b => a.1 ≤ b.1)) :
    (HtsFileModel.multimap_insert k v m).Pairwise (fun a b => a.1 ≤ b.1) := by
  induction m with
  | nil => simp [HtsFileModel.multimap_insert]
  | cons e rest ih =>
    rcases List.pairwise_cons.mp h with ⟨he, hrest⟩
    simp only [HtsFileModel.multimap_insert]
    split_ifs with hk
    · refine List.pairwise_cons.mpr ⟨?_, h⟩
      intro b hb
      rcases List.mem_cons.mp hb with rfl | hb2
      · exact le_of_lt hk
      · exact le_trans (le_of_lt hk) (he b hb2)
    · refine List.pairwise_cons.mpr ⟨?_, ih hrest⟩
      intro b hb
      rcases mem_multimap_insert hb with rfl | hb2
      · exact by omega
      · exact he b hb2

/-- Counterexample for C4: cache a record with sorting key 100 into an empty
sorted sink, then cache a record with sorting key 5 that does not fit.  The
triggered flush writes the unfitting record FIRST (at its key-sorted
position), not last: the write sequence is `[direct_record, buffered 0]` and
its last element is the buffered record. -/
theorem C4_unfitting_record_not_last_cex :
    (HtsFileModel.cache_record
        (HtsFileModel.cache_record ⟨false, false, 200, 0, [], 0, 0⟩ ⟨0, 100, 40⟩).1
        ⟨0, 5, 40⟩).2 =
      some [HtsFileModel.WriteSrc.direct_record, HtsFileModel.WriteSrc.buffered 0] ∧
    [HtsFileModel.WriteSrc.direct_record, HtsFileModel.WriteSrc.buffered 0].getLast? ≠
      some HtsFileModel.WriteSrc.direct_record := by
  refine ⟨by decide, by decide⟩

/-- Claim C4 (amended): a flush triggered by a record that does not fit
drains the buffer map in key order with the unfitting record inserted at
offset `-1`; that record is written at its key-sorted position — after every
buffered record whose key is at most its key and before the rest — not
necessarily last, and the drained sequence as a whole remains key-sorted. -/
theorem C4_flush_unfitting_record_sorted_position (s : HtsFileModel.HtsState)
    (r : HtsFileModel.Bam1)
    (hsorted : s.buffer_map.Pairwise (fun a b => a.1 ≤ b.1)) :
    (HtsFileModel.flush_temp_file s (some r)).2 =
      some ((s.buffer_map.takeWhile
              (fun e => decide (e.1 ≤ HtsFileModel.calculate_sorting_key r))).map
            HtsFileModel.write_src_of_entry ++
          HtsFileModel.WriteSrc.direct_record ::
          (s.buffer_map.dropWhile
              (fun e => decide (e.1 ≤ HtsFileModel.calculate_sorting_key r))).map
            HtsFileModel.write_src_of_entry) ∧
    (HtsFileModel.multimap_insert (HtsFileModel.calculate_sorting_key r) (-1)
        s.buffer_map).Pairwise (fun a b => a.1 ≤ b.1) := by
  constructor
  · have hne : ¬ (s.current_buffer_offset = 0 ∧ (some r : Option HtsFileModel.Bam1) = none) := by
      simp
    rw [HtsFileModel.flush_temp_file, if_neg hne]
    simp only [multimap_insert_eq_takeWhile, List.map_append, List.map_cons]
    simp [HtsFileModel.write_src_of_entry]
  · exact multimap_insert_pairwise hsorted

/-- Witness for C4: a concrete sorted buffer holding one record with key 100;
flushing with an unfitting record of key 5 writes that record first and the
buffered record second. -/
theorem C4_witness :
    (HtsFileModel.flush_temp_file ⟨false, false, 200, 120, [(100, 0)], 0, 1⟩
        (some ⟨0, 5, 40⟩)).2 =
      some [HtsFileModel.WriteSrc.direct_record, HtsFileModel.WriteSrc.buffered 0] := by
  have h := C4_flush_unfitting_record_sorted_position
    ⟨false, false, 200, 120, [(100, 0)], 0, 1⟩ ⟨0, 5, 40⟩ (by simp)
  rw [h.1]
  decide

/-- Inversion of the `create_basecall_runners` epilogue: a successful result
hands back exactly the runner list and device count, and appends the
chunk-adjustment log entry precisely when the front runner reports a chunk
size different from the requested one. -/
theorem runners_epilogue_ok {requested_chunk : Nat} {runners : List RunnersModel.Runner}
    {num_devices : Nat} {logs logs' : List RunnersModel.RunnerLog}
    {res : RunnersModel.RunnersResult}
    (h : RunnersModel.runners_epilogue requested_chunk runners num_devices logs =
      .ok (res, logs')) :
    res.runners = runners ∧ res.num_devices = num_devices ∧
    ∃ r rest, runners = r :: rest ∧
      logs' = logs ++
        (if requested_chunk ≠ r.chunk_size then
          [RunnersModel.RunnerLog.debug_adjusted_chunk requested_chunk r.chunk_size]
        else []) := by
  cases runners with
  | nil => simp [RunnersModel.runners_epilogue] at h
  | cons r rest =>
    simp only [RunnersModel.runners_epilogue, Except.ok.injEq, Prod.mk.injEq] at h
    obtain ⟨hres, hlogs⟩ := h
    refine ⟨by rw [← hres], by rw [← hres], r, rest, rfl, hlogs.symm⟩

/-- Counterexample for C2: a CPU plan with model stride 5 and requested chunk
size 7.  The chunk size is adjusted to 10 (each constructed runner reports
`chunk_size() = 10` and the adjustment is logged), but the value handed back
to the caller of the plan is the pair of the runner vector and the device
count 1 — the adjusted chunk size 10 is not returned. -/
theorem C2_adjusted_chunk_not_returned_cex :
    RunnersModel.create_basecall_runners ⟨5⟩ .cpu 0 2 0 7 4
        RunnersModel.accept_requested_batch =
      .ok (⟨List.replicate 2 ⟨5, 10, 128⟩, 1⟩,
           [.debug_cpu_params 128 2, .debug_adjusted_chunk 7 10]) ∧
    RunnersModel.adjust_chunk_size 5 7 ≠ 7 ∧
    (RunnersModel.RunnersResult.mk (List.replicate 2 ⟨5, 10, 128⟩) 1).num_devices ≠
      RunnersModel.adjust_chunk_size 5 7 := by
  refine ⟨rfl, by decide, by decide⟩

/-- Claim C2 (amended): every successful `create_basecall_runners` call
produces runners that all report the model stride of the config and one
common chunk size (the requested chunk rounded to a multiple of the stride);
when the chunk size was adjusted this is logged — but the plan returns only
the runner vector and the number of devices, so the adjusted chunk size is
not returned to the caller. -/
theorem C2_runners_uniform_chunk_logged_not_returned
    (model_config : RunnersModel.CRFModelConfig) (device : RunnersModel.DeviceSpec)
    (num_gpu_runners num_cpu_runners batch_size chunk_size auto_num_runners : Nat)
    (negotiate_batch : String → Nat → Nat)
    (res : RunnersModel.RunnersResult) (logs : List RunnersModel.RunnerLog)
    (h : RunnersModel.create_basecall_runners model_config device num_gpu_runners
      num_cpu_runners batch_size chunk_size auto_num_runners negotiate_batch =
      .ok (res, logs)) :
    (∀ r ∈ res.runners, r.model_stride = model_config.stride ∧
      r.chunk_size = RunnersModel.adjust_chunk_size model_config.stride chunk_size) ∧
    (chunk_size ≠ RunnersModel.adjust_chunk_size model_config.stride chunk_size →
      RunnersModel.RunnerLog.debug_adjusted_chunk chunk_size
        (RunnersModel.adjust_chunk_size model_config.stride chunk_size) ∈ logs) ∧
    res.num_devices =
      (match device with | .cuda devices => devices.length | _ => 1) := by
  cases device with
  | cpu =>
    simp only [RunnersModel.create_basecall_runners] at h
    obtain ⟨hrunners, hnd, r, rest, hcons, hlogs⟩ := runners_epilogue_ok h
    have hmem : ∀ x ∈ res.runners, x = (⟨model_config.stride,
        RunnersModel.adjust_chunk_size model_config.stride chunk_size,
        if batch_size = 0 then 128 else batch_size⟩ : RunnersModel.Runner) := by
      intro x hx
      rw [hrunners] at hx
      exact List.eq_of_mem_replicate hx
    refine ⟨?_, ?_, by rw [hnd]⟩
    · intro x hx
      rw [hmem x hx]
      exact ⟨rfl, rfl⟩
    · intro hadj
      have hr : r.chunk_size =
          RunnersModel.adjust_chunk_size model_config.stride chunk_size := by
        have : r ∈ res.runners := by
          rw [hrunners, hcons]; exact List.mem_cons_self r rest
        exact (hmem r this ▸ rfl)
      rw [hlogs, hr]
      simp [hadj]
  | metal =>
    simp only [RunnersModel.create_basecall_runners] at h
    by_cases hempty : (List.replicate num_gpu_runners
        (⟨model_config.stride,
          RunnersModel.adjust_chunk_size model_config.stride chunk_size,
          negotiate_batch "metal" batch_size⟩ : RunnersModel.Runner)).isEmpty
    · rw [if_pos hempty] at h
      exact absurd h (by simp)
    · rw [if_neg hempty] at h
      obtain ⟨hrunners, hnd, r, rest, hcons, hlogs⟩ := runners_epilogue_ok h
      have hmem : ∀ x ∈ res.runners, x = (⟨model_config.stride,
          RunnersModel.adjust_chunk_size model_config.stride chunk_size,
          negotiate_batch "metal" batch_size⟩ : RunnersModel.Runner) := by
        intro x hx
        rw [hrunners] at hx
        exact List.eq_of_mem_replicate hx
      refine ⟨?_, ?_, by rw [hnd]⟩
      · intro x hx
        rw [hmem x hx]
        exact ⟨rfl, rfl⟩
      · intro hadj
        have hr : r.chunk_size =
            RunnersModel.adjust_chunk_size model_config.stride chunk_size := by
          have : r ∈ res.runners := by
            rw [hrunners, hcons]; exact List.mem_cons_self r rest
          exact (hmem r this ▸ rfl)
        rw [hlogs, hr]
        simp [hadj]
  | cuda devices =>
    simp only [RunnersModel.create_basecall_runners] at h
    by_cases hdev : devices.length = 0
    · rw [if_pos hdev] at h
      exact absurd h (by simp)
    · rw [if_neg hdev] at h
      by_cases hgpu : num_gpu_runners = 0
      · rw [if_pos hgpu] at h
        exact absurd h (by simp)
      · rw [if_neg hgpu] at h
        obtain ⟨hrunners, hnd, r, rest, hcons, hlogs⟩ := runners_epilogue_ok h
        have hmem : ∀ x ∈ res.runners, x.model_stride = model_config.stride ∧
            x.chunk_size =
              RunnersModel.adjust_chunk_size model_config.stride chunk_size := by
          intro x hx
          rw [hrunners] at hx
          obtain ⟨d, -, hx2⟩ := List.mem_flatMap.mp hx
          have := List.eq_of_mem_replicate hx2
          rw [this]
          exact ⟨rfl, rfl⟩
        refine ⟨hmem, ?_, by rw [hnd]⟩
        intro hadj
        have hr : r.chunk_size =
            RunnersModel.adjust_chunk_size model_config.stride chunk_size := by
          have : r ∈ res.runners := by
            rw [hrunners, hcons]; exact List.mem_cons_self r rest
          exact (hmem r this).2
        rw [hlogs, hr]
        simp [hadj]

/-- Witness for C2: the CPU plan with stride 5 and requested chunk 7 from the
counterexample; applying the amended theorem yields stride/chunk uniformity,
the adjustment log entry, and a returned device count of 1. -/
theorem C2_witness :
    (∀ r ∈ (RunnersModel.RunnersResult.mk (List.replicate 2 ⟨5, 10, 128⟩) 1).runners,
      r.model_stride = 5 ∧ r.chunk_size = RunnersModel.adjust_chunk_size 5 7) ∧
    ((7 : Nat) ≠ RunnersModel.adjust_chunk_size 5 7 →
      RunnersModel.RunnerLog.debug_adjusted_chunk 7 (RunnersModel.adjust_chunk_size 5 7) ∈
        [RunnersModel.RunnerLog.debug_cpu_params 128 2,
         RunnersModel.RunnerLog.debug_adjusted_chunk 7 10]) ∧
    (RunnersModel.RunnersResult.mk (List.replicate 2 ⟨5, 10, 128⟩) 1).num_devices = 1 := by
  have h := C2_runners_uniform_chunk_logged_not_returned ⟨5⟩ .cpu 0 2 0 7 4
    RunnersModel.accept_requested_batch
    ⟨List.replicate 2 ⟨5, 10, 128⟩, 1⟩
    [.debug_cpu_params 128 2, .debug_adjusted_chunk 7 10] rfl
  exact ⟨h.1, fun hne => by simpa using h.2.1 (by decide), h.2.2⟩

/-- Pointwise update read back at the updated key. -/
theorem upd_self {α : Type} (f : Nat → α) (k : Nat) (v : α) :
    ExecutorModel.upd f k v k = v := by
  simp [ExecutorModel.upd]

/-- Pointwise update read back at any other key. -/
theorem upd_other {α : Type} (f : Nat → α) {k x : Nat} (v : α) (h : x ≠ k) :
    ExecutorModel.upd f k v x = f x := by
  simp [ExecutorModel.upd, h]

/-- The executor invariant holds initially. -/
theorem executor_inv_init : ExecutorModel.Inv ExecutorModel.initState := by
  refine ⟨?_, ?_, ?_, ?_, ?_, ?_, ?_⟩
  · simp [ExecutorModel.initState]
  · intro t ht
    simp [ExecutorModel.initState] at ht
  · intro t ht
    exact ⟨by simp [ExecutorModel.initState], rfl⟩
  · intro w t hw
    simp [ExecutorModel.initState] at hw
  · intro t w hs
    simp [ExecutorModel.initState] at hs
  · intro t hl
    simp [ExecutorModel.initState] at hl
  · intro t hr
    simp [ExecutorModel.initState] at hr

/-- The executor invariant is preserved by every interleaving step. -/
theorem executor_inv_step {s s' : ExecutorModel.ExecState}
    (hstep : ExecutorModel.Step s s') (hi : ExecutorModel.Inv s) :
    ExecutorModel.Inv s' := by
  obtain ⟨h1, h2, h3, h4, h5, h6, h7⟩ := hi
  cases hstep with
  | send_push t ht =>
    refine ⟨?_, ?_, ?_, h4, h5, h6, ?_⟩
    · dsimp only
      have hnotin : t ∉ s.task_queue := (h3 t ht).1
      refine List.Nodup.append h1 (List.nodup_singleton t) ?_
      intro a ha hb
      simp only [List.mem_singleton] at hb
      exact hnotin (hb ▸ ha)
    · intro u hu
      dsimp only at hu ⊢
      rcases List.mem_append.mp hu with hq | hq
      · exact h2 u hq
      · simp only [List.mem_singleton] at hq
        exact hq ▸ (h3 t ht).2
    · intro u hu
      dsimp only at hu ⊢
      rcases eq_or_ne u t with rfl | hne
      · rw [upd_self] at hu
        exact absurd hu (by simp)
      · rw [upd_other _ _ hne] at hu
        obtain ⟨hnq, hpn⟩ := h3 u hu
        refine ⟨?_, hpn⟩
        simp only [List.mem_append, List.mem_singleton]
        rintro (hq | rfl)
        · exact hnq hq
        · exact hne rfl
    · intro u hu
      dsimp only at hu ⊢
      rcases eq_or_ne u t with rfl | hne
      · rw [upd_self] at hu
        exact absurd hu (by simp)
      · rw [upd_other _ _ hne] at hu
        exact h7 u hu
  | send_return t hw hl =>
    refine ⟨h1, h2, ?_, h4, h5, h6, ?_⟩
    · intro u hu
      dsimp only at hu ⊢
      rcases eq_or_ne u t with rfl | hne
      · rw [upd_self] at hu
        exact absurd hu (by simp)
      · rw [upd_other _ _ hne] at hu
        exact h3 u hu
    · intro u hu
      dsimp only at hu ⊢
      rcases eq_or_ne u t with rfl | hne
      · exact hl
      · rw [upd_other _ _ hne] at hu
        exact h7 u hu
  | worker_pop w t rest hw hq =>
    have hqn : (t :: rest).Nodup := hq ▸ h1
    have htr : t ∉ rest := (List.nodup_cons.mp hqn).1
    have hthead : t ∈ s.task_queue := by rw [hq]; exact List.mem_cons_self t rest
    refine ⟨?_, ?_, ?_, ?_, ?_, h6, h7⟩
    · exact (List.nodup_cons.mp hqn).2
    · intro u hu
      dsimp only at hu ⊢
      have hne : u ≠ t := fun h => htr (h ▸ hu)
      rw [upd_other _ _ hne]
      exact h2 u (by rw [hq]; exact List.mem_cons_of_mem t hu)
    · intro u hu
      dsimp only at hu ⊢
      obtain ⟨hnq, hpn⟩ := h3 u hu
      have hne : u ≠ t := by
        rintro rfl
        exact hnq hthead
      refine ⟨?_, by rw [upd_other _ _ hne]; exact hpn⟩
      intro hmem
      exact hnq (by rw [hq]; exact List.mem_cons_of_mem t hmem)
    · intro w' u hw'
      dsimp only at hw' ⊢
      rcases eq_or_ne w' w with rfl | hnw
      · rw [upd_self] at hw'
        have : u = t := by
          cases hw'
          rfl
        subst this
        rw [upd_self]
      · rw [upd_other _ _ hnw] at hw'
        have hp := h4 w' u hw'
        have hne : u ≠ t := by
          rintro rfl
          rw [h2 u hthead] at hp
          exact Option.noConfusion hp
        rw [upd_other _ _ hne]
        exact hp
    · intro u w' hs'
      dsimp only at hs' ⊢
      have hp := h5 u w' hs'
      have hne : u ≠ t := by
        rintro rfl
        rw [h2 u hthead] at hp
        exact Option.noConfusion hp
      rw [upd_other _ _ hne]
      exact hp
  | worker_signal w t hw =>
    refine ⟨h1, h2, h3, ?_, ?_, ?_, ?_⟩
    · intro w' u hw'
      dsimp only at hw' ⊢
      rcases eq_or_ne w' w with rfl | hnw
      · rw [upd_self] at hw'
        exact absurd hw' (by simp)
      · rw [upd_other _ _ hnw] at hw'
        exact h4 w' u hw'
    · intro u w' hs'
      dsimp only at hs' ⊢
      rcases eq_or_ne u t with rfl | hne
      · rw [upd_self] at hs'
        cases hs'
        exact h4 w u hw
      · rw [upd_other _ _ hne] at hs'
        exact h5 u w' hs'
    · intro u hl
      dsimp only at hl ⊢
      rcases eq_or_ne u t with rfl | hne
      · rw [upd_self]
        rfl
      · rw [upd_other _ _ hne] at hl
        rw [upd_other _ _ hne]
        exact h6 u hl
    · intro u hr
      dsimp only at hr ⊢
      rcases eq_or_ne u t with rfl | hne
      · rw [upd_self]
      · rw [upd_other _ _ hne]
        exact h7 u hr
  | worker_finish w t hw =>
    refine ⟨h1, h2, h3, ?_, h5, h6, h7⟩
    intro w' u hw'
    dsimp only at hw' ⊢
    rcases eq_or_ne w' w with rfl | hnw
    · rw [upd_self] at hw'
      exact absurd hw' (by simp)
    · rw [upd_other _ _ hnw] at hw'
      exact h4 w' u hw'

/-- Every reachable executor state satisfies the invariant. -/
theorem executor_reachable_inv {s : ExecutorModel.ExecState}
    (h : ExecutorModel.Reachable s) : ExecutorModel.Inv s := by
  induction h with
  | init => exact executor_inv_init
  | step hr hs ih => exact executor_inv_step hs ih

/-- Claim C3: in every reachable state in which `send(t)` has returned, the
per-task `started` latch of `t` has been signalled, and the signalling worker
is the worker that popped `t` from the task queue — the handshake signal
happens before `send(t)` returns in every execution. -/
theorem C3_send_blocks_until_started_signal (s : ExecutorModel.ExecState)
    (hs : ExecutorModel.Reachable s) (t : Nat)
    (hret : s.sender t = .returned) :
    s.latch t = true ∧
    ∃ w, s.signalled_by t = some w ∧ s.popped_by t = some w := by
  obtain ⟨-, -, -, -, h5, h6, h7⟩ := executor_reachable_inv hs
  have hl := h7 t hret
  have hsig := h6 t hl
  obtain ⟨w, hw⟩ := Option.isSome_iff_exists.mp hsig
  exact ⟨hl, w, hw, h5 t w hw⟩

/-- Witness for C3: the four-step demonstration execution in which task 0 is
pushed, popped by worker 0, signalled, and the send returns; the theorem
yields the signalled latch. -/
theorem C3_witness :
    ExecutorModel.demo4.latch 0 = true ∧
    (ExecutorModel.demo4.signalled_by 0).isSome = true := by
  have r0 : ExecutorModel.Reachable ExecutorModel.initState := .init
  have r1 : ExecutorModel.Reachable ExecutorModel.demo1 :=
    .step r0 (ExecutorModel.Step.send_push ExecutorModel.initState 0 rfl)
  have r2 : ExecutorModel.Reachable ExecutorModel.demo2 :=
    .step r1 (ExecutorModel.Step.worker_pop ExecutorModel.demo1 0 0 [] rfl rfl)
  have r3 : ExecutorModel.Reachable ExecutorModel.demo3 :=
    .step r2 (ExecutorModel.Step.worker_signal ExecutorModel.demo2 0 0 rfl)
  have r4 : ExecutorModel.Reachable ExecutorModel.demo4 :=
    .step r3 (ExecutorModel.Step.send_return ExecutorModel.demo3 0 rfl rfl)
  obtain ⟨hl, w, hw, -⟩ := C3_send_blocks_until_started_signal ExecutorModel.demo4 r4 0 rfl
  exact ⟨hl, by rw [hw]; rfl⟩
